import Mathlib

/-!
Shallow embedding of the slot-machine core (TypeScript sources:
`src/StateManager.ts`, `src/WinEvaluator.ts`, `src/ReelManager.ts`,
`src/GameEngine.ts`, `src/types.ts`) and proofs about it.

Conventions used throughout:
* TypeScript class methods that mutate `this` become Lean functions that
  take the receiver state and return the updated state (paired with the
  method's return value where there is one).
* Methods that `throw` become functions into `Except String _`, carrying
  the thrown message.
* JavaScript string truthiness (`!s`) on a `string` field is emptiness;
  a possibly-`undefined`/`null` value is an `Option`.
* The cosmetic 100ms animation interval of `ReelManager` only ever
  advances `reelPositions[i]` of a spinning reel; it is modelled as an
  explicit `tickReel` step that may be interleaved between operations.
-/

namespace SlotMachine

/-- Game state enumeration (`GameState` in `src/types.ts`). -/
inductive GameState where
  | IDLE
  | SPINNING
  | PARTIALLY_STOPPED
  | SHOWING_RESULTS
deriving DecidableEq, Repr

/-- The string value of each `GameState` enum member in `src/types.ts`. -/
def GameState.toStr : GameState → String
  | .IDLE => "idle"
  | .SPINNING => "spinning"
  | .PARTIALLY_STOPPED => "partially_stopped"
  | .SHOWING_RESULTS => "showing_results"

/-- The `validTransitions` record built inside
`StateManager.canTransition` (`src/StateManager.ts`). -/
def StateManager.validTransitions : GameState → List GameState
  | .IDLE => [.SPINNING]
  | .SPINNING => [.PARTIALLY_STOPPED, .SHOWING_RESULTS]
  | .PARTIALLY_STOPPED => [.PARTIALLY_STOPPED, .SHOWING_RESULTS]
  | .SHOWING_RESULTS => [.IDLE]

/-- `StateManager.canTransition` (`src/StateManager.ts`): the
partially-stopped self-loop is special-cased first, every other
self-loop is rejected, then the transition table is consulted. -/
def StateManager.canTransition (f t : GameState) : Bool :=
  if f = t ∧ f = GameState.PARTIALLY_STOPPED then true
  else if f = t then false
  else (StateManager.validTransitions f).contains t

/-- `StateManager.transitionTo` (`src/StateManager.ts`).  The source
mutates `this.currentState`; here the method returns its boolean result
paired with the state held after the call. -/
def StateManager.transitionTo (current newState : GameState) : Bool × GameState :=
  if !StateManager.canTransition current newState then (false, current)
  else (true, newState)

/-- Runs a sequence of `transitionTo` attempts from a start state,
collecting each call's boolean result and the final state. -/
def StateManager.runTransitions : GameState → List GameState → List Bool × GameState
  | s, [] => ([], s)
  | s, t :: ts =>
    let r := StateManager.transitionTo s t
    let rest := StateManager.runTransitions r.2 ts
    (r.1 :: rest.1, rest.2)

/-- Specification-side description of one `transitionTo` call: the call
returns exactly `canTransition current t`, and the state changes to `t`
iff that result is `true` (otherwise it is left unchanged). -/
inductive StateManager.TraceOK : GameState → List GameState → List Bool × GameState → Prop
  | nil (s : GameState) : StateManager.TraceOK s [] ([], s)
  | cons (s t : GameState) (ts : List GameState) (r : Bool) (rs : List Bool) (fin : GameState)
      (hr : r = StateManager.canTransition s t)
      (htail : StateManager.TraceOK (if r then t else s) ts (rs, fin)) :
      StateManager.TraceOK s (t :: ts) (r :: rs, fin)

/-- Specification-side transition table of section 4.4 of the design
document: exactly the six listed pairs are legal. -/
def StateManager.specCanTransition (f t : GameState) : Bool :=
  match f, t with
  | .IDLE, .SPINNING => true
  | .SPINNING, .PARTIALLY_STOPPED => true
  | .SPINNING, .SHOWING_RESULTS => true
  | .PARTIALLY_STOPPED, .PARTIALLY_STOPPED => true
  | .PARTIALLY_STOPPED, .SHOWING_RESULTS => true
  | .SHOWING_RESULTS, .IDLE => true
  | _, _ => false

/-- A slot symbol (`Symbol` in `src/types.ts`).  `rarity` is an
optional numeric field that no game logic reads. -/
structure Symbol where
  id : String
  name : String
  displayValue : String
  rarity : Option Int := none
deriving DecidableEq, Repr

/-- A win evaluation result (`WinResult` in `src/types.ts`); `winType`
is an optional field, omitted in lose results. -/
structure WinResult where
  isWin : Bool
  winType : Option String := none
  message : String
deriving DecidableEq, Repr

/-- A registered win condition (`WinCondition` in `src/types.ts`). -/
structure WinCondition where
  id : String
  name : String
  pattern : List Symbol → Bool
  message : String

/-- The argument of `addWinCondition` as an arbitrary caller may build
it: each field may be absent (JavaScript `undefined`/missing). -/
structure WinConditionInput where
  id : Option String
  name : Option String
  pattern : Option (List Symbol → Bool)
  message : Option String

/-- JavaScript truthiness of one symbol as tested by the evaluator's
loop `!symbol || !symbol.id || !symbol.name || !symbol.displayValue`
(restricted to a present symbol): all three string fields non-empty. -/
def Symbol.isValid (s : Symbol) : Bool :=
  s.id ≠ "" && s.name ≠ "" && s.displayValue ≠ ""

/-- Truthiness of a possibly-`null` array entry: a `null` entry fails
the `!symbol` test, a present one is checked field-wise. -/
def optSymbolValid : Option Symbol → Bool
  | none => false
  | some s => s.isValid

/-- Error message of `WinEvaluator.evaluateResult` for an absent or
wrongly-sized symbol array. -/
def WinEvaluator.invalidArrayMsg : String := "エラー：無効なシンボル配列です"

/-- Error message of `WinEvaluator.evaluateResult` for a symbol with a
missing/empty field. -/
def WinEvaluator.invalidSymbolMsg : String := "エラー：無効なシンボルが含まれています"

/-- Fixed tail of the no-match lose message of
`WinEvaluator.evaluateResult`. -/
def WinEvaluator.loseSuffix : String := " - 残念！次回頑張りましょう！"

/-- The no-match lose message: the three display glyphs space-joined,
then the fixed suffix. -/
def WinEvaluator.loseMessage (s0 s1 s2 : Symbol) : String :=
  s0.displayValue ++ " " ++ s1.displayValue ++ " " ++ s2.displayValue ++
    WinEvaluator.loseSuffix

/-- `WinEvaluator.evaluateResult` (`src/WinEvaluator.ts`).  The input
is the possibly-absent array of possibly-`null` symbols the caller
passes; `conds` is the evaluator's current `winConditions` list.  The
source checks the array, then each symbol in order (every failure
yields the same result, so a single guard is equivalent), then scans
the conditions in registration order returning the first match. -/
def WinEvaluator.evaluateResult (conds : List WinCondition)
    (input : Option (List (Option Symbol))) : WinResult :=
  match input with
  | none => { isWin := false, message := WinEvaluator.invalidArrayMsg }
  | some [some s0, some s1, some s2] =>
    if s0.isValid && s1.isValid && s2.isValid then
      match conds.find? (fun c => c.pattern [s0, s1, s2]) with
      | some c => { isWin := true, winType := some c.id, message := c.message }
      | none => { isWin := false, message := WinEvaluator.loseMessage s0 s1 s2 }
    else { isWin := false, message := WinEvaluator.invalidSymbolMsg }
  | some symbols =>
    if symbols.length = 3 then { isWin := false, message := WinEvaluator.invalidSymbolMsg }
    else { isWin := false, message := WinEvaluator.invalidArrayMsg }

/-- `WinEvaluator.isWinningCombination` (`src/WinEvaluator.ts`): same
input validation, then `some` over the registered conditions. -/
def WinEvaluator.isWinningCombination (conds : List WinCondition)
    (input : Option (List (Option Symbol))) : Bool :=
  match input with
  | none => false
  | some [some s0, some s1, some s2] =>
    if s0.isValid && s1.isValid && s2.isValid then
      conds.any (fun c => c.pattern [s0, s1, s2])
    else false
  | some _ => false

/-- Error message of `WinEvaluator.addWinCondition`. -/
def WinEvaluator.invalidCondMsg : String := "無効な勝利条件です"

/-- `WinEvaluator.addWinCondition` (`src/WinEvaluator.ts`): rejects a
missing condition or a condition whose `id`, `name`, `pattern` or
`message` is missing/empty; otherwise replaces the first condition with
the same id in place, or appends at the end. -/
def WinEvaluator.addWinCondition (conds : List WinCondition)
    (input : Option WinConditionInput) : Except String (List WinCondition) :=
  match input with
  | none => .error WinEvaluator.invalidCondMsg
  | some c =>
    match c.id, c.name, c.pattern, c.message with
    | some id0, some name0, some pat0, some msg0 =>
      if id0 ≠ "" ∧ name0 ≠ "" ∧ msg0 ≠ "" then
        let cond : WinCondition := ⟨id0, name0, pat0, msg0⟩
        match conds.findIdx? (fun c0 => c0.id == id0) with
        | some idx => .ok (conds.set idx cond)
        | none => .ok (conds ++ [cond])
      else .error WinEvaluator.invalidCondMsg
    | _, _, _, _ => .error WinEvaluator.invalidCondMsg

/-- The predicate of the built-in default condition: all three ids
equal (with the source's own length-3 guard). -/
def WinEvaluator.threeOfAKindPattern (symbols : List Symbol) : Bool :=
  if symbols.length ≠ 3 then false
  else
    match symbols with
    | s0 :: s1 :: s2 :: _ => s0.id == s1.id && s1.id == s2.id
    | _ => false

/-- The built-in default win condition registered by the
`WinEvaluator` constructor. -/
def WinEvaluator.threeOfAKindCondition : WinCondition :=
  { id := "three_of_a_kind"
    name := "3つ揃い"
    pattern := WinEvaluator.threeOfAKindPattern
    message := "🎉 おめでとうございます！3つ揃いで勝利です！" }

/-- The argument the constructor passes to `addWinCondition`. -/
def WinEvaluator.defaultCondInput : WinConditionInput :=
  { id := some "three_of_a_kind"
    name := some "3つ揃い"
    pattern := some WinEvaluator.threeOfAKindPattern
    message := some "🎉 おめでとうございます！3つ揃いで勝利です！" }

/-- Condition list of a default-constructed `WinEvaluator`. -/
def WinEvaluator.defaultWinConditions : List WinCondition :=
  [WinEvaluator.threeOfAKindCondition]

/-- The default symbol set (`DEFAULT_SYMBOLS` in `src/types.ts`). -/
def DEFAULT_SYMBOLS : List Symbol :=
  [⟨"cherry", "Cherry", "🍒", none⟩,
   ⟨"lemon", "Lemon", "🍋", none⟩,
   ⟨"orange", "Orange", "🍊", none⟩,
   ⟨"plum", "Plum", "🍇", none⟩,
   ⟨"bell", "Bell", "🔔", none⟩,
   ⟨"bar", "Bar", "⬛", none⟩,
   ⟨"seven", "Seven", "7️⃣", none⟩]

/-- The malformed-input class of C6: the array is absent, its length is
not 3, or some entry is `null` or has an empty id/name/glyph. -/
def WinEvaluator.malformedInput (input : Option (List (Option Symbol))) : Prop :=
  input = none ∨
    ∃ l, input = some l ∧ (l.length ≠ 3 ∨ ∃ os ∈ l, optSymbolValid os = false)

/-- The condition a given `addWinCondition` argument denotes, when the
argument passes the source's validation (all four fields present, the
string fields non-empty); `none` when validation rejects it. -/
def WinEvaluator.condOfInput : Option WinConditionInput → Option WinCondition
  | none => none
  | some c =>
    match c.id, c.name, c.pattern, c.message with
    | some id0, some name0, some pat0, some msg0 =>
      if id0 ≠ "" ∧ name0 ≠ "" ∧ msg0 ≠ "" then some ⟨id0, name0, pat0, msg0⟩
      else none
    | _, _, _, _ => none

/-- Per-reel status (`'spinning' | 'stopped'` in `src/ReelManager.ts`). -/
inductive ReelStatus where
  | spinning
  | stopped
deriving DecidableEq, Repr

/-- One reel's slice of the four parallel length-3 arrays of
`ReelManager` (`reelStates[i]`, `reelSymbols[i]`, `reelSymbolSets[i]`,
`reelPositions[i]`). -/
structure Reel where
  status : ReelStatus
  fixedSymbol : Option Symbol
  fixedSet : Option (List Symbol)
  position : Nat
deriving DecidableEq, Repr

/-- The `ReelManager` instance state: the immutable symbol set and the
`REEL_COUNT = 3` reels (the source's arrays are created with exactly
three entries and never grow or shrink). -/
structure ReelManagerState where
  symbolSet : List Symbol
  reel0 : Reel
  reel1 : Reel
  reel2 : Reel
deriving DecidableEq, Repr

/-- Dynamic indexing into the three reels (array access `xs[i]` on the
parallel arrays; out-of-range gives `undefined`, here `none`). -/
def ReelManagerState.reelAt (rm : ReelManagerState) : Nat → Option Reel
  | 0 => some rm.reel0
  | 1 => some rm.reel1
  | 2 => some rm.reel2
  | _ => none

/-- Dynamic update of reel `i` (array assignment on the parallel
arrays; out-of-range writes do not occur in the embedded methods). -/
def ReelManagerState.setReel (rm : ReelManagerState) (i : Nat) (r : Reel) :
    ReelManagerState :=
  match i with
  | 0 => { rm with reel0 := r }
  | 1 => { rm with reel1 := r }
  | 2 => { rm with reel2 := r }
  | _ => rm

/-- `ReelManager.validateSymbolSet` (`src/ReelManager.ts`): a non-empty
array whose every symbol has non-empty `id`, `name`, `displayValue`
(the `typeof ... === 'string'` checks are vacuous under typing). -/
def ReelManager.validateSymbolSet (symbols : List Symbol) : Bool :=
  !symbols.isEmpty && symbols.all Symbol.isValid

/-- A reel as initialized by the `ReelManager` constructor: stopped,
no fixed symbol, no fixed symbol set, position 0. -/
def ReelManager.initReel : Reel :=
  { status := .stopped, fixedSymbol := none, fixedSet := none, position := 0 }

/-- The `ReelManager` constructor: uses the custom symbol set when one
is passed (`customSymbols || DEFAULT_SYMBOLS`; note a passed empty
array is truthy in JavaScript and is therefore validated and rejected),
and throws `Invalid symbol set provided` on an invalid set. -/
def ReelManager.construct (customSymbols : Option (List Symbol)) :
    Except String ReelManagerState :=
  let symbolSet := customSymbols.getD DEFAULT_SYMBOLS
  if ReelManager.validateSymbolSet symbolSet then
    .ok { symbolSet := symbolSet, reel0 := ReelManager.initReel,
          reel1 := ReelManager.initReel, reel2 := ReelManager.initReel }
  else .error "Invalid symbol set provided"

/-- `ReelManager.spinReels`: sets all three reels to spinning, clears
their symbols and symbol sets, resets their positions to 0 (and starts
the cosmetic animation interval, modelled by `tickReel` below). -/
def ReelManager.spinReels (rm : ReelManagerState) : ReelManagerState :=
  let r : Reel := { status := .spinning, fixedSymbol := none, fixedSet := none,
                    position := 0 }
  { rm with reel0 := r, reel1 := r, reel2 := r }

/-- One firing of the 100ms animation interval of reel `i`: advances
the reel's position cyclically.  The interval runs exactly while the
reel is spinning (`spinReels` starts it, `stopReel` clears it), so the
step is a no-op for a stopped or non-existent reel. -/
def ReelManager.tickReel (i : Nat) (rm : ReelManagerState) : ReelManagerState :=
  match rm.reelAt i with
  | some r =>
    if r.status == ReelStatus.spinning then
      rm.setReel i { r with position := (r.position + 1) % rm.symbolSet.length }
    else rm
  | none => rm

/-- `ReelManager.isReelSpinning`: defensively `false` for out-of-range
indices, else whether the reel's status is `'spinning'`. -/
def ReelManager.isReelSpinning (i : Int) (rm : ReelManagerState) : Bool :=
  if i < 0 ∨ 3 ≤ i then false
  else
    match rm.reelAt i.toNat with
    | some r => r.status == ReelStatus.spinning
    | none => false

/-- `ReelManager.getCurrentSymbolAtPosition`: the symbol at reel `i`'s
current position; throws on an out-of-range index (`undefined`
position) or a missing symbol. -/
def ReelManager.getCurrentSymbolAtPosition (i : Int) (rm : ReelManagerState) :
    Except String Symbol :=
  match (if i < 0 then none else rm.reelAt i.toNat) with
  | none => .error ("Invalid reel index: " ++ toString i)
  | some r =>
    match rm.symbolSet[r.position]? with
    | none => .error ("No symbol found at position " ++ toString r.position)
    | some sym => .ok sym

/-- `ReelManager.getCurrentSymbolSetAtPosition`: the three symbols
(top, center, bottom) around reel `i`'s current position; top and
bottom wrap cyclically (`(position - 1 + len) % len` is
`(position + len - 1) % len` on naturals), the center is looked up at
the raw position. -/
def ReelManager.getCurrentSymbolSetAtPosition (i : Int) (rm : ReelManagerState) :
    Except String (List Symbol) :=
  match (if i < 0 then none else rm.reelAt i.toNat) with
  | none => .error ("Invalid reel index: " ++ toString i)
  | some r =>
    let len := rm.symbolSet.length
    let topIndex := (r.position + len - 1) % len
    match rm.symbolSet[topIndex]? with
    | none => .error ("No symbol found at position " ++ toString topIndex)
    | some top =>
      match rm.symbolSet[r.position]? with
      | none => .error ("No symbol found at position " ++ toString r.position)
      | some center =>
        let bottomIndex := (r.position + 1) % len
        match rm.symbolSet[bottomIndex]? with
        | none => .error ("No symbol found at position " ++ toString bottomIndex)
        | some bottom => .ok [top, center, bottom]

/-- `ReelManager.stopReel`: validates the index, rejects an
already-stopped reel, fixes the current three-symbol window, records
the center symbol as the reel's final symbol, marks the reel stopped
(and clears its animation interval) and returns the center symbol. -/
def ReelManager.stopReel (i : Int) (rm : ReelManagerState) :
    Except String (Symbol × ReelManagerState) :=
  if i < 0 ∨ 3 ≤ i then
    .error ("Invalid reel index: " ++ toString i ++ ". Must be between 0 and 2")
  else
    match rm.reelAt i.toNat with
    | none => .error ("Invalid reel index: " ++ toString i)
    | some r =>
      if r.status == ReelStatus.stopped then
        .error ("Reel " ++ toString i ++ " is already stopped")
      else
        match ReelManager.getCurrentSymbolSetAtPosition i rm with
        | .error e => .error e
        | .ok symbols3 =>
          match symbols3[1]? with
          | none => .error "Failed to get center symbol"
          | some center =>
            .ok (center,
              rm.setReel i.toNat
                { r with status := .stopped, fixedSymbol := some center,
                         fixedSet := some symbols3 })

/-- What one reel contributes to `getAllReelSymbols`: a stopped reel's
fixed symbol (`reelSymbols[i] || null`), a spinning reel's
currently-displayed symbol (`null` when the lookup would throw). -/
def ReelManager.reelSymbolView (rm : ReelManagerState) (r : Reel) : Option Symbol :=
  match r.status with
  | .stopped => r.fixedSymbol
  | .spinning => rm.symbolSet[r.position]?

/-- `ReelManager.getAllReelSymbols`: the per-reel symbol view for the
three reels (the source loop runs `i = 0, 1, 2`). -/
def ReelManager.getAllReelSymbols (rm : ReelManagerState) : List (Option Symbol) :=
  [ReelManager.reelSymbolView rm rm.reel0,
   ReelManager.reelSymbolView rm rm.reel1,
   ReelManager.reelSymbolView rm rm.reel2]

/-- A `SpinResult` (`src/types.ts`) without its wall-clock `timestamp`
field, which carries no game logic. -/
structure SpinResult where
  symbols : List Symbol
  winResult : WinResult
deriving DecidableEq, Repr

/-- The `GameEngine` instance state: the `StateManager`'s current state
and the `ReelManager` state.  The engine's `WinEvaluator` is
default-constructed and never mutated by the engine, so its condition
list is the constant `defaultWinConditions`. -/
structure EngineState where
  gameState : GameState
  rm : ReelManagerState
deriving DecidableEq, Repr

/-- The `GameEngine` constructor: a fresh `StateManager` (state IDLE)
and a fresh `ReelManager` over the given symbols. -/
def GameEngine.construct (customSymbols : Option (List Symbol)) :
    Except String EngineState :=
  match ReelManager.construct customSymbols with
  | .error e => .error e
  | .ok rm => .ok { gameState := .IDLE, rm := rm }

/-- `GameEngine.canSpin`: spinning may start only from IDLE. -/
def GameEngine.canSpin (s : EngineState) : Bool :=
  s.gameState == GameState.IDLE

/-- `GameEngine.initiateSpin`: rejects a non-IDLE state, transitions
IDLE→SPINNING and spins the reels. -/
def GameEngine.initiateSpin (s : EngineState) : Except String EngineState :=
  if !GameEngine.canSpin s then
    .error ("スピンを開始できません。現在の状態: " ++ s.gameState.toStr)
  else
    let t := StateManager.transitionTo s.gameState .SPINNING
    if !t.1 then .error "SPINNING状態への遷移に失敗しました"
    else .ok { gameState := t.2, rm := ReelManager.spinReels s.rm }

/-- `GameEngine.stopReel`: requires SPINNING or PARTIALLY_STOPPED,
requires reel `i` to be spinning (an out-of-range index also fails
here, since `isReelSpinning` is defensively false), stops the reel,
then transitions to SHOWING_RESULTS when all three reels are stopped,
or (from SPINNING, i.e. on the first stop) to PARTIALLY_STOPPED.  The
booleans returned by `transitionTo` are ignored by the source. -/
def GameEngine.stopReel (i : Int) (s : EngineState) :
    Except String (Symbol × EngineState) :=
  let currentState := s.gameState
  if currentState != .SPINNING && currentState != .PARTIALLY_STOPPED then
    .error ("リールを停止できません。現在の状態: " ++ currentState.toStr)
  else if !(ReelManager.isReelSpinning i s.rm) then
    .error ("リール " ++ toString (i + 1) ++ " は既に停止しています")
  else
    match ReelManager.stopReel i s.rm with
    | .error e => .error e
    | .ok (sym, rm1) =>
      let allStopped := !(ReelManager.isReelSpinning 0 rm1) &&
        !(ReelManager.isReelSpinning 1 rm1) && !(ReelManager.isReelSpinning 2 rm1)
      let gs1 :=
        if allStopped then (StateManager.transitionTo currentState .SHOWING_RESULTS).2
        else if currentState == .SPINNING then
          (StateManager.transitionTo currentState .PARTIALLY_STOPPED).2
        else currentState
      .ok (sym, { gameState := gs1, rm := rm1 })

/-- `GameEngine.areAllReelsStopped`. -/
def GameEngine.areAllReelsStopped (s : EngineState) : Bool :=
  !(ReelManager.isReelSpinning 0 s.rm) && !(ReelManager.isReelSpinning 1 s.rm) &&
    !(ReelManager.isReelSpinning 2 s.rm)

/-- `GameEngine.evaluateResult`: requires all reels stopped, requires
every reel symbol non-null, evaluates the symbols with the (default)
evaluator, attempts the transition to IDLE (result ignored by the
source) and returns the `SpinResult`. -/
def GameEngine.evaluateResult (s : EngineState) :
    Except String (SpinResult × EngineState) :=
  if !GameEngine.areAllReelsStopped s then
    .error "すべてのリールが停止していません"
  else
    let symbols := ReelManager.getAllReelSymbols s.rm
    if symbols.any (fun o => o.isNone) then
      .error "一部のリールがまだ停止していません"
    else
      let winResult := WinEvaluator.evaluateResult
        WinEvaluator.defaultWinConditions (some symbols)
      .ok ({ symbols := symbols.filterMap (fun o => o), winResult := winResult },
           { gameState := (StateManager.transitionTo s.gameState .IDLE).2, rm := s.rm })

/-- The animation tick lifted to the engine state (game state is not
touched by the cosmetic interval). -/
def GameEngine.tickEngine (i : Nat) (s : EngineState) : EngineState :=
  { s with rm := ReelManager.tickReel i s.rm }

/-- The engine states reachable from construction through the public
operations, with animation ticks interleaved arbitrarily.  Failing
operations throw before any modelled mutation, so they do not change
the state and need no constructor here. -/
inductive GameEngine.Reachable : EngineState → Prop
  | init (customSymbols : Option (List Symbol)) (s0 : EngineState) :
      GameEngine.construct customSymbols = .ok s0 → GameEngine.Reachable s0
  | tick (s : EngineState) (i : Nat) :
      GameEngine.Reachable s → GameEngine.Reachable (GameEngine.tickEngine i s)
  | spin (s s1 : EngineState) :
      GameEngine.Reachable s → GameEngine.initiateSpin s = .ok s1 →
      GameEngine.Reachable s1
  | stop (s : EngineState) (i : Int) (sym : Symbol) (s1 : EngineState) :
      GameEngine.Reachable s → GameEngine.stopReel i s = .ok (sym, s1) →
      GameEngine.Reachable s1
  | eval (s : EngineState) (r : SpinResult) (s1 : EngineState) :
      GameEngine.Reachable s → GameEngine.evaluateResult s = .ok (r, s1) →
      GameEngine.Reachable s1

/-- All three reels stopped. -/
def allStoppedP (rm : ReelManagerState) : Prop :=
  rm.reel0.status = .stopped ∧ rm.reel1.status = .stopped ∧ rm.reel2.status = .stopped

/-- All three reels spinning. -/
def allSpinningP (rm : ReelManagerState) : Prop :=
  rm.reel0.status = .spinning ∧ rm.reel1.status = .spinning ∧
    rm.reel2.status = .spinning

/-- Some reel stopped. -/
def someStoppedP (rm : ReelManagerState) : Prop :=
  rm.reel0.status = .stopped ∨ rm.reel1.status = .stopped ∨ rm.reel2.status = .stopped

/-- Some reel spinning. -/
def someSpinningP (rm : ReelManagerState) : Prop :=
  rm.reel0.status = .spinning ∨ rm.reel1.status = .spinning ∨
    rm.reel2.status = .spinning

/-- Every stopped reel holds a fixed symbol. -/
def stoppedHaveSymbols (rm : ReelManagerState) : Prop :=
  (rm.reel0.status = .stopped → rm.reel0.fixedSymbol.isSome = true) ∧
  (rm.reel1.status = .stopped → rm.reel1.fixedSymbol.isSome = true) ∧
  (rm.reel2.status = .stopped → rm.reel2.fixedSymbol.isSome = true)

/-- The game-state/reel-state linkage. -/
def stateLink (s : EngineState) : Prop :=
  match s.gameState with
  | .IDLE => allStoppedP s.rm
  | .SPINNING => allSpinningP s.rm
  | .PARTIALLY_STOPPED => someStoppedP s.rm ∧ someSpinningP s.rm ∧
      stoppedHaveSymbols s.rm
  | .SHOWING_RESULTS => allStoppedP s.rm ∧ stoppedHaveSymbols s.rm

/-- The inductive invariant of reachable engine states: a validated
symbol set, in-range reel positions, and the state linkage. -/
def EngineInv (s : EngineState) : Prop :=
  ReelManager.validateSymbolSet s.rm.symbolSet = true ∧
  s.rm.reel0.position < s.rm.symbolSet.length ∧
  s.rm.reel1.position < s.rm.symbolSet.length ∧
  s.rm.reel2.position < s.rm.symbolSet.length ∧
  stateLink s

/-- The all-stopped test `!isReelSpinning(0) && !isReelSpinning(1) &&
!isReelSpinning(2)` as a function of the reel state. -/
def allStoppedB (rm : ReelManagerState) : Bool :=
  !(ReelManager.isReelSpinning 0 rm) && !(ReelManager.isReelSpinning 1 rm) &&
    !(ReelManager.isReelSpinning 2 rm)

/-- The engine built by `new GameEngine()` (default symbol set). -/
def initialEngine : EngineState :=
  { gameState := .IDLE,
    rm := { symbolSet := DEFAULT_SYMBOLS, reel0 := ReelManager.initReel,
            reel1 := ReelManager.initReel, reel2 := ReelManager.initReel } }

/-- The engine right after `initiateSpin()` on a fresh engine. -/
def spinningEngine : EngineState :=
  { gameState := .SPINNING, rm := ReelManager.spinReels initialEngine.rm }

/-- A sequence of `stopReel` attempts, ignoring failed calls (a thrown
call leaves the modelled state unchanged). -/
def GameEngine.applyStops : List Int → EngineState → EngineState
  | [], s => s
  | k :: ks, s =>
    match GameEngine.stopReel k s with
    | .ok p => GameEngine.applyStops ks p.2
    | .error _ => GameEngine.applyStops ks s

/-- The engine after `spin()` then `stopReel(0)` on the default
catalog: reel 0 stops at position 0 (cherry on the payline, seven
above, lemon below), the game state becomes PARTIALLY_STOPPED. -/
def stoppedOnceEngine : EngineState :=
  { gameState := .PARTIALLY_STOPPED,
    rm := spinningEngine.rm.setReel 0
      { status := .stopped,
        fixedSymbol := some ⟨"cherry", "Cherry", "🍒", none⟩,
        fixedSet := some [⟨"seven", "Seven", "7️⃣", none⟩,
          ⟨"cherry", "Cherry", "🍒", none⟩, ⟨"lemon", "Lemon", "🍋", none⟩],
        position := 0 } }

/-- C1: for every sequence of state-transition attempts, each
`transitionTo(t)` call returns exactly `canTransition(current, t)`; on
`false` the state is unchanged, on `true` the new state `t` is
committed.  The embedding is a total function, so no call throws. -/
theorem transitionTo_matches_canTransition (s : GameState) (ts : List GameState) :
    StateManager.TraceOK s ts (StateManager.runTransitions s ts) := by
  induction ts generalizing s with
  | nil => exact StateManager.TraceOK.nil s
  | cons t ts ih =>
    have hstep : StateManager.transitionTo s t =
        (StateManager.canTransition s t,
          if StateManager.canTransition s t then t else s) := by
      unfold StateManager.transitionTo
      by_cases h : StateManager.canTransition s t = true
      · simp [h]
      · simp at h
        simp [h]
    show StateManager.TraceOK s (t :: ts) (StateManager.runTransitions s (t :: ts))
    unfold StateManager.runTransitions
    rw [hstep]
    exact StateManager.TraceOK.cons s t ts _ _ _ rfl (by
      have := ih (if StateManager.canTransition s t then t else s)
      simpa using this)

/-- C2: `canTransition` agrees exactly with the six-pair transition
table of the specification (Idle→Spinning, Spinning→PartiallyStopped,
Spinning→ShowingResults, PartiallyStopped→PartiallyStopped,
PartiallyStopped→ShowingResults, ShowingResults→Idle); every other
pair, including every other self-loop, is rejected.  `canTransition` is
a pure function of its two arguments, so it has no side effects. -/
theorem canTransition_matches_table (f t : GameState) :
    StateManager.canTransition f t = StateManager.specCanTransition f t := by
  cases f <;> cases t <;> decide

/-- The constructor's `addWinCondition` call indeed produces
`defaultWinConditions`. -/
theorem WinEvaluator.defaultWinConditions_eq :
    WinEvaluator.addWinCondition [] (some WinEvaluator.defaultCondInput) =
      .ok WinEvaluator.defaultWinConditions := by
  rfl

/-- C4: `isWinningCombination` agrees with `evaluateResult(...).isWin`
on every input (absent, wrong-length or malformed inputs included) and
every condition list.  Both embeddings are total functions, so neither
call throws. -/
theorem isWinningCombination_agrees_evaluateResult
    (conds : List WinCondition) (input : Option (List (Option Symbol))) :
    (WinEvaluator.evaluateResult conds input).isWin =
      WinEvaluator.isWinningCombination conds input := by
  rcases input with _ | l
  · rfl
  · rcases l with _ | ⟨a, _ | ⟨b, _ | ⟨c, _ | ⟨d, rest⟩⟩⟩⟩
    · rfl
    · cases a <;> rfl
    · cases a <;> cases b <;> rfl
    · cases a with
      | none => cases b <;> cases c <;> rfl
      | some x =>
        cases b with
        | none => cases c <;> rfl
        | some y =>
          cases c with
          | none => rfl
          | some z =>
            show (WinEvaluator.evaluateResult conds (some [some x, some y, some z])).isWin =
              WinEvaluator.isWinningCombination conds (some [some x, some y, some z])
            unfold WinEvaluator.evaluateResult WinEvaluator.isWinningCombination
            by_cases hv : (x.isValid && y.isValid && z.isValid) = true
            · simp only [hv, if_true]
              cases hf : conds.find? (fun cd => cd.pattern [x, y, z]) with
              | none =>
                have := List.find?_eq_none.mp hf
                have hany : conds.any (fun cd => cd.pattern [x, y, z]) = false := by
                  rw [Bool.eq_false_iff]
                  intro hc
                  obtain ⟨cd, hmem, hcd⟩ := List.any_eq_true.mp hc
                  exact this cd hmem hcd
                simp [hany]
              | some cd =>
                have hp := List.find?_some hf
                have hmem := List.mem_of_find?_eq_some hf
                have hany : conds.any (fun cd => cd.pattern [x, y, z]) = true :=
                  List.any_eq_true.mpr ⟨cd, hmem, hp⟩
                simp [hany]
            · rw [Bool.not_eq_true] at hv
              simp [hv]
    · cases a <;> cases b <;> cases c <;> rfl

/-- C5: on a default-constructed evaluator, any triple of (well-formed)
symbols whose three ids agree wins with `winType = "three_of_a_kind"`. -/
theorem evaluateResult_three_of_a_kind (s0 s1 s2 : Symbol)
    (h0 : s0.isValid = true) (h1 : s1.isValid = true) (h2 : s2.isValid = true)
    (e01 : s0.id = s1.id) (e12 : s1.id = s2.id) :
    (WinEvaluator.evaluateResult WinEvaluator.defaultWinConditions
        (some [some s0, some s1, some s2])).isWin = true ∧
    (WinEvaluator.evaluateResult WinEvaluator.defaultWinConditions
        (some [some s0, some s1, some s2])).winType = some "three_of_a_kind" := by
  have hpat : WinEvaluator.threeOfAKindPattern [s0, s1, s2] = true := by
    unfold WinEvaluator.threeOfAKindPattern
    simp [e01, e12]
  unfold WinEvaluator.evaluateResult
  simp [h0, h1, h2, WinEvaluator.defaultWinConditions, List.find?,
    WinEvaluator.threeOfAKindCondition, hpat]

/-- Witness for C5 at the concrete triple cherry/cherry/cherry. -/
theorem evaluateResult_three_of_a_kind_witness :
    (WinEvaluator.evaluateResult WinEvaluator.defaultWinConditions
        (some [some ⟨"cherry", "Cherry", "🍒", none⟩,
               some ⟨"cherry", "Cherry", "🍒", none⟩,
               some ⟨"cherry", "Cherry", "🍒", none⟩])).isWin = true ∧
    (WinEvaluator.evaluateResult WinEvaluator.defaultWinConditions
        (some [some ⟨"cherry", "Cherry", "🍒", none⟩,
               some ⟨"cherry", "Cherry", "🍒", none⟩,
               some ⟨"cherry", "Cherry", "🍒", none⟩])).winType =
      some "three_of_a_kind" :=
  evaluateResult_three_of_a_kind
    ⟨"cherry", "Cherry", "🍒", none⟩ ⟨"cherry", "Cherry", "🍒", none⟩
    ⟨"cherry", "Cherry", "🍒", none⟩ (by decide) (by decide) (by decide) rfl rfl

/-- The no-match lose message never coincides with the invalid-array
error message (they end in different characters). -/
theorem loseMessage_ne_invalidArrayMsg (s0 s1 s2 : Symbol) :
    WinEvaluator.loseMessage s0 s1 s2 ≠ WinEvaluator.invalidArrayMsg := by
  intro h
  have hd := congrArg (fun s => s.data.getLast?) h
  simp only [WinEvaluator.loseMessage, String.data_append] at hd
  rw [List.getLast?_append_of_ne_nil _ (by decide)] at hd
  exact absurd hd (by decide)

/-- The no-match lose message never coincides with the invalid-symbol
error message (they end in different characters). -/
theorem loseMessage_ne_invalidSymbolMsg (s0 s1 s2 : Symbol) :
    WinEvaluator.loseMessage s0 s1 s2 ≠ WinEvaluator.invalidSymbolMsg := by
  intro h
  have hd := congrArg (fun s => s.data.getLast?) h
  simp only [WinEvaluator.loseMessage, String.data_append] at hd
  rw [List.getLast?_append_of_ne_nil _ (by decide)] at hd
  exact absurd hd (by decide)

/-- On malformed input `evaluateResult` returns one of its two error
results (in particular it does not reach the condition scan). -/
theorem evaluateResult_malformed_eq (conds : List WinCondition)
    (input : Option (List (Option Symbol))) (h : WinEvaluator.malformedInput input) :
    WinEvaluator.evaluateResult conds input =
        { isWin := false, message := WinEvaluator.invalidArrayMsg } ∨
    WinEvaluator.evaluateResult conds input =
        { isWin := false, message := WinEvaluator.invalidSymbolMsg } := by
  rcases h with rfl | ⟨l, rfl, hbad⟩
  · left; rfl
  · rcases l with _ | ⟨a, _ | ⟨b, _ | ⟨c, _ | ⟨d, rest⟩⟩⟩⟩
    · left; rfl
    · left; cases a <;> rfl
    · left; cases a <;> cases b <;> rfl
    · rcases hbad with h3 | ⟨os, hmem, hbad⟩
      · exact absurd rfl h3
      · cases a with
        | none => right; cases b <;> cases c <;> rfl
        | some x =>
          cases b with
          | none => right; cases c <;> rfl
          | some y =>
            cases c with
            | none => right; rfl
            | some z =>
              right
              have hv : (x.isValid && y.isValid && z.isValid) = false := by
                simp only [List.mem_cons, List.not_mem_nil, or_false] at hmem
                rcases hmem with rfl | rfl | rfl <;>
                  simp_all [optSymbolValid]
              unfold WinEvaluator.evaluateResult
              simp [hv]
    · left
      cases a <;> cases b <;> cases c <;>
        · show WinEvaluator.evaluateResult conds (some (_ :: _ :: _ :: d :: rest)) = _
          unfold WinEvaluator.evaluateResult
          simp

/-- C6: on every malformed input (absent array, wrong length, `null`
entry, or a symbol with empty id/name/glyph) `evaluateResult` returns —
without throwing — a `WinResult` with `isWin = false` whose message
differs from the no-match lose message of every symbol triple (hence of
every valid losing triple). -/
theorem evaluateResult_malformed_soft_fail (conds : List WinCondition)
    (input : Option (List (Option Symbol))) (h : WinEvaluator.malformedInput input) :
    (WinEvaluator.evaluateResult conds input).isWin = false ∧
    ∀ s0 s1 s2 : Symbol,
      (WinEvaluator.evaluateResult conds input).message ≠
        WinEvaluator.loseMessage s0 s1 s2 := by
  rcases evaluateResult_malformed_eq conds input h with heq | heq <;> rw [heq]
  · exact ⟨rfl, fun s0 s1 s2 hc => loseMessage_ne_invalidArrayMsg s0 s1 s2 hc.symm⟩
  · exact ⟨rfl, fun s0 s1 s2 hc => loseMessage_ne_invalidSymbolMsg s0 s1 s2 hc.symm⟩

/-- Witness for C6 at the concrete malformed input `some []`. -/
theorem evaluateResult_malformed_soft_fail_witness :
    (WinEvaluator.evaluateResult WinEvaluator.defaultWinConditions (some [])).isWin
        = false ∧
    (WinEvaluator.evaluateResult WinEvaluator.defaultWinConditions (some [])).message ≠
      WinEvaluator.loseMessage ⟨"cherry", "Cherry", "🍒", none⟩
        ⟨"lemon", "Lemon", "🍋", none⟩ ⟨"orange", "Orange", "🍊", none⟩ := by
  have h := evaluateResult_malformed_soft_fail WinEvaluator.defaultWinConditions
    (some []) (Or.inr ⟨[], rfl, Or.inl (by decide)⟩)
  exact ⟨h.1, h.2 _ _ _⟩

/-- C8: `addWinCondition` throws exactly when the condition or one of
its `id`, `name`, `pattern`, `message` fields is missing or empty.
Otherwise, when no registered condition shares the id, the condition is
appended at the end; when one does, the first condition with that id is
replaced in place: the list keeps its length, position `idx` now holds
the new condition, and every other position is untouched. -/
theorem addWinCondition_spec (conds : List WinCondition)
    (input : Option WinConditionInput) :
    (WinEvaluator.condOfInput input = none →
      WinEvaluator.addWinCondition conds input =
        .error WinEvaluator.invalidCondMsg) ∧
    (∀ cond, WinEvaluator.condOfInput input = some cond →
      ((∀ c0 ∈ conds, c0.id ≠ cond.id) →
          WinEvaluator.addWinCondition conds input = .ok (conds ++ [cond])) ∧
      (∀ idx, conds.findIdx? (fun c0 => c0.id == cond.id) = some idx →
          WinEvaluator.addWinCondition conds input = .ok (conds.set idx cond) ∧
          idx < conds.length ∧
          (conds.set idx cond).length = conds.length ∧
          (conds.set idx cond)[idx]? = some cond ∧
          ∀ k, k ≠ idx → (conds.set idx cond)[k]? = conds[k]?)) := by
  constructor
  · intro hnone
    rcases input with _ | c
    · rfl
    · rcases c with ⟨_ | id0, _ | name0, _ | pat0, _ | msg0⟩ <;>
        first
          | rfl
          | (unfold WinEvaluator.condOfInput at hnone
             unfold WinEvaluator.addWinCondition
             by_cases hne : id0 ≠ "" ∧ name0 ≠ "" ∧ msg0 ≠ ""
             · simp [hne] at hnone
             · simp [hne])
  · intro cond hsome
    rcases input with _ | c
    · exact absurd hsome (by simp [WinEvaluator.condOfInput])
    · obtain ⟨cid, cname, cpat, cmsg⟩ := c
      rcases cid with _ | id0
      · exact absurd hsome (by unfold WinEvaluator.condOfInput; simp)
      rcases cname with _ | name0
      · exact absurd hsome (by unfold WinEvaluator.condOfInput; simp)
      rcases cpat with _ | pat0
      · exact absurd hsome (by unfold WinEvaluator.condOfInput; simp)
      rcases cmsg with _ | msg0
      · exact absurd hsome (by unfold WinEvaluator.condOfInput; simp)
      replace hsome : (if id0 ≠ "" ∧ name0 ≠ "" ∧ msg0 ≠ "" then
          some (⟨id0, name0, pat0, msg0⟩ : WinCondition) else none) = some cond := hsome
      by_cases hne : id0 ≠ "" ∧ name0 ≠ "" ∧ msg0 ≠ ""
      · rw [if_pos hne] at hsome
        injection hsome with hsome
        subst hsome
        constructor
        · intro hfresh
          have hidx : conds.findIdx? (fun c0 => c0.id == id0) = none := by
            rw [List.findIdx?_eq_none_iff]
            intro c0 hc0
            simpa using hfresh c0 hc0
          unfold WinEvaluator.addWinCondition
          simp [hne, hidx]
        · intro idx hidx
          have hlt : idx < conds.length :=
            (List.findIdx?_eq_some_iff_getElem.mp hidx).1
          refine ⟨?_, hlt, by simp, by simp [List.getElem?_set_self, hlt], ?_⟩
          · unfold WinEvaluator.addWinCondition
            simp [hne, hidx]
          · intro k hk
            exact List.getElem?_set_ne (fun h => hk h.symm)
      · simp [hne] at hsome

/-- Witness for C8: the constructor's own registration of the default
condition into an empty list appends it at the end. -/
theorem addWinCondition_spec_witness :
    WinEvaluator.addWinCondition [] (some WinEvaluator.defaultCondInput) =
      .ok ([] ++ [WinEvaluator.threeOfAKindCondition]) :=
  ((addWinCondition_spec [] (some WinEvaluator.defaultCondInput)).2
      WinEvaluator.threeOfAKindCondition rfl).1 (by simp)

theorem areAllReelsStopped_eq (s : EngineState) :
    GameEngine.areAllReelsStopped s = allStoppedB s.rm := rfl

theorem isReelSpinning_zero (rm : ReelManagerState) :
    ReelManager.isReelSpinning 0 rm = (rm.reel0.status == ReelStatus.spinning) := by
  simp [ReelManager.isReelSpinning, ReelManagerState.reelAt]

theorem isReelSpinning_one (rm : ReelManagerState) :
    ReelManager.isReelSpinning 1 rm = (rm.reel1.status == ReelStatus.spinning) := by
  simp [ReelManager.isReelSpinning, ReelManagerState.reelAt]

theorem isReelSpinning_two (rm : ReelManagerState) :
    ReelManager.isReelSpinning 2 rm = (rm.reel2.status == ReelStatus.spinning) := by
  simp [ReelManager.isReelSpinning, ReelManagerState.reelAt]

theorem ReelStatus.eq_stopped_of_ne_spinning {r : ReelStatus}
    (h : ¬r = ReelStatus.spinning) : r = ReelStatus.stopped := by
  cases r
  · exact absurd rfl h
  · rfl

theorem allStoppedB_true_iff (rm : ReelManagerState) :
    allStoppedB rm = true ↔ allStoppedP rm := by
  unfold allStoppedB allStoppedP
  rw [isReelSpinning_zero, isReelSpinning_one, isReelSpinning_two]
  cases h0 : rm.reel0.status <;> cases h1 : rm.reel1.status <;>
    cases h2 : rm.reel2.status <;> decide

theorem allStoppedB_false_iff (rm : ReelManagerState) :
    allStoppedB rm = false ↔ someSpinningP rm := by
  unfold allStoppedB someSpinningP
  rw [isReelSpinning_zero, isReelSpinning_one, isReelSpinning_two]
  cases h0 : rm.reel0.status <;> cases h1 : rm.reel1.status <;>
    cases h2 : rm.reel2.status <;> decide

/-- Success elimination for `ReelManager.stopReel`: the index is in
range, the reel was spinning, and the update marks exactly that reel
stopped with the returned center symbol fixed. -/
theorem ReelManager.stopReel_ok {i : Int} {rm : ReelManagerState} {sym : Symbol}
    {rm1 : ReelManagerState} (h : ReelManager.stopReel i rm = .ok (sym, rm1)) :
    ∃ (k : Nat) (r : Reel) (symbols3 : List Symbol),
      k < 3 ∧ i = (k : Int) ∧ rm.reelAt k = some r ∧ r.status = .spinning ∧
      ReelManager.getCurrentSymbolSetAtPosition i rm = .ok symbols3 ∧
      symbols3[1]? = some sym ∧
      rm1 = rm.setReel k { r with status := .stopped, fixedSymbol := some sym,
                                  fixedSet := some symbols3 } := by
  unfold ReelManager.stopReel at h
  by_cases hrange : i < 0 ∨ 3 ≤ i
  · rw [if_pos hrange] at h
    exact absurd h (by simp)
  · rw [if_neg hrange] at h
    push_neg at hrange
    obtain ⟨hge, hlt⟩ := hrange
    have hkk : i = (i.toNat : Int) := (Int.toNat_of_nonneg hge).symm
    have hk3 : i.toNat < 3 := by omega
    cases hra : rm.reelAt i.toNat with
    | none => rw [hra] at h; exact absurd h (by simp)
    | some r =>
      rw [hra] at h
      dsimp only at h
      by_cases hst : (r.status == ReelStatus.stopped) = true
      · rw [if_pos hst] at h
        exact absurd h (by simp)
      · rw [if_neg hst] at h
        have hspin : r.status = .spinning := by
          cases hr : r.status
          · rfl
          · rw [hr] at hst; exact absurd (by decide) hst
        cases hset : ReelManager.getCurrentSymbolSetAtPosition i rm with
        | error e => rw [hset] at h; exact absurd h (by simp)
        | ok symbols3 =>
          rw [hset] at h
          dsimp only at h
          cases hc : symbols3[1]? with
          | none => rw [hc] at h; exact absurd h (by simp)
          | some center =>
            rw [hc] at h
            dsimp only at h
            simp only [Except.ok.injEq, Prod.mk.injEq] at h
            obtain ⟨hsym, hrm⟩ := h
            subst hsym
            exact ⟨i.toNat, r, symbols3, hk3, hkk, hra, hspin, rfl, hc, hrm.symm⟩

/-- Success elimination for `GameEngine.initiateSpin`. -/
theorem GameEngine.initiateSpin_ok {s s1 : EngineState}
    (h : GameEngine.initiateSpin s = .ok s1) :
    s.gameState = .IDLE ∧
    s1 = { gameState := .SPINNING, rm := ReelManager.spinReels s.rm } := by
  unfold GameEngine.initiateSpin at h
  split at h
  · exact absurd h (by simp)
  · rename_i hc
    have hidle : s.gameState = .IDLE := by
      simpa [GameEngine.canSpin] using hc
    dsimp only at h
    split at h
    · exact absurd h (by simp)
    · simp only [Except.ok.injEq] at h
      refine ⟨hidle, ?_⟩
      rw [← h, hidle]
      rfl

/-- Success elimination for `GameEngine.stopReel`. -/
theorem GameEngine.stopReel_success {i : Int} {s : EngineState} {sym : Symbol}
    {s1 : EngineState} (h : GameEngine.stopReel i s = .ok (sym, s1)) :
    (s.gameState = .SPINNING ∨ s.gameState = .PARTIALLY_STOPPED) ∧
    ReelManager.isReelSpinning i s.rm = true ∧
    ∃ rm1, ReelManager.stopReel i s.rm = .ok (sym, rm1) ∧
      s1.rm = rm1 ∧
      s1.gameState =
        (if allStoppedB rm1 = true then
          (StateManager.transitionTo s.gameState .SHOWING_RESULTS).2
        else if s.gameState = .SPINNING then
          (StateManager.transitionTo s.gameState .PARTIALLY_STOPPED).2
        else s.gameState) := by
  unfold GameEngine.stopReel at h
  dsimp only at h
  by_cases hgs : (s.gameState != .SPINNING && s.gameState != .PARTIALLY_STOPPED) = true
  · rw [if_pos hgs] at h
    exact absurd h (by simp)
  · rw [if_neg hgs] at h
    have hstate : s.gameState = .SPINNING ∨ s.gameState = .PARTIALLY_STOPPED := by
      cases hg : s.gameState with
      | IDLE => rw [hg] at hgs; exact absurd (by decide) hgs
      | SPINNING => exact Or.inl rfl
      | PARTIALLY_STOPPED => exact Or.inr rfl
      | SHOWING_RESULTS => rw [hg] at hgs; exact absurd (by decide) hgs
    by_cases hsp : ReelManager.isReelSpinning i s.rm = true
    · rw [hsp] at h
      simp only [Bool.not_true, Bool.false_eq_true, if_false] at h
      cases hmr : ReelManager.stopReel i s.rm with
      | error e => rw [hmr] at h; exact absurd h (by simp)
      | ok p =>
        obtain ⟨sym0, rm1⟩ := p
        rw [hmr] at h
        dsimp only at h
        simp only [Except.ok.injEq, Prod.mk.injEq] at h
        obtain ⟨hsym, hs1⟩ := h
        subst hsym
        refine ⟨hstate, hsp, rm1, rfl, ?_, ?_⟩
        · rw [← hs1]
        · rw [← hs1]
          show (if (!(ReelManager.isReelSpinning 0 rm1) &&
                !(ReelManager.isReelSpinning 1 rm1) &&
                !(ReelManager.isReelSpinning 2 rm1)) = true then
              (StateManager.transitionTo s.gameState .SHOWING_RESULTS).2
            else if (s.gameState == .SPINNING) = true then
              (StateManager.transitionTo s.gameState .PARTIALLY_STOPPED).2
            else s.gameState) = _
          by_cases hall : (!(ReelManager.isReelSpinning 0 rm1) &&
              !(ReelManager.isReelSpinning 1 rm1) &&
              !(ReelManager.isReelSpinning 2 rm1)) = true
          · rw [if_pos hall, if_pos (show allStoppedB rm1 = true from hall)]
          · rw [if_neg hall, if_neg (show ¬allStoppedB rm1 = true from hall)]
            by_cases hsg : s.gameState = .SPINNING
            · rw [if_pos (show (s.gameState == GameState.SPINNING) = true by
                  simp [hsg]), if_pos hsg]
            · rw [if_neg (show ¬(s.gameState == GameState.SPINNING) = true by
                  simp [hsg]), if_neg hsg]

    · simp only [Bool.not_eq_true] at hsp
      rw [hsp] at h
      simp at h

/-- Success elimination for `GameEngine.evaluateResult`. -/
theorem GameEngine.evaluateResult_ok {s : EngineState} {r : SpinResult}
    {s1 : EngineState} (h : GameEngine.evaluateResult s = .ok (r, s1)) :
    GameEngine.areAllReelsStopped s = true ∧
    (ReelManager.getAllReelSymbols s.rm).any (fun o => o.isNone) = false ∧
    r = { symbols := (ReelManager.getAllReelSymbols s.rm).filterMap (fun o => o),
          winResult := WinEvaluator.evaluateResult WinEvaluator.defaultWinConditions
            (some (ReelManager.getAllReelSymbols s.rm)) } ∧
    s1 = { gameState := (StateManager.transitionTo s.gameState .IDLE).2,
           rm := s.rm } := by
  unfold GameEngine.evaluateResult at h
  by_cases hall : GameEngine.areAllReelsStopped s = true
  · rw [hall] at h
    simp only [Bool.not_true, Bool.false_eq_true, if_false] at h
    by_cases hnone : (ReelManager.getAllReelSymbols s.rm).any (fun o => o.isNone) = true
    · rw [hnone] at h
      exact absurd h (by simp)
    · simp only [Bool.not_eq_true] at hnone
      rw [hnone] at h
      simp only [Bool.false_eq_true, if_false, Except.ok.injEq, Prod.mk.injEq] at h
      exact ⟨hall, hnone, h.1.symm, h.2.symm⟩
  · simp only [Bool.not_eq_true] at hall
    rw [hall] at h
    simp at h

/-- Success elimination for the `GameEngine` constructor. -/
theorem GameEngine.construct_ok {cs : Option (List Symbol)} {s0 : EngineState}
    (h : GameEngine.construct cs = .ok s0) :
    ReelManager.validateSymbolSet (cs.getD DEFAULT_SYMBOLS) = true ∧
    s0 = { gameState := .IDLE,
           rm := { symbolSet := cs.getD DEFAULT_SYMBOLS,
                   reel0 := ReelManager.initReel, reel1 := ReelManager.initReel,
                   reel2 := ReelManager.initReel } } := by
  unfold GameEngine.construct ReelManager.construct at h
  dsimp only at h
  by_cases hv : ReelManager.validateSymbolSet (cs.getD DEFAULT_SYMBOLS) = true
  · rw [if_pos hv] at h
    dsimp only at h
    simp only [Except.ok.injEq] at h
    exact ⟨hv, h.symm⟩
  · rw [if_neg hv] at h
    exact absurd h (by simp)

theorem validateSymbolSet_pos {l : List Symbol}
    (h : ReelManager.validateSymbolSet l = true) : 0 < l.length := by
  unfold ReelManager.validateSymbolSet at h
  cases l
  · simp at h
  · simp

/-- `stateLink` only inspects reel statuses and fixed symbols, so it
transfers along any reel-state change preserving those. -/
theorem stateLink_congr {gs : GameState} {rm rm1 : ReelManagerState}
    (h0s : rm1.reel0.status = rm.reel0.status)
    (h1s : rm1.reel1.status = rm.reel1.status)
    (h2s : rm1.reel2.status = rm.reel2.status)
    (h0f : rm1.reel0.fixedSymbol = rm.reel0.fixedSymbol)
    (h1f : rm1.reel1.fixedSymbol = rm.reel1.fixedSymbol)
    (h2f : rm1.reel2.fixedSymbol = rm.reel2.fixedSymbol)
    (h : stateLink { gameState := gs, rm := rm }) :
    stateLink { gameState := gs, rm := rm1 } := by
  unfold stateLink allStoppedP allSpinningP someStoppedP someSpinningP
    stoppedHaveSymbols at h ⊢
  cases gs <;> dsimp only at h ⊢ <;>
    simp only [h0s, h1s, h2s, h0f, h1f, h2f] <;> exact h

theorem construct_inv {cs : Option (List Symbol)} {s0 : EngineState}
    (h : GameEngine.construct cs = .ok s0) : EngineInv s0 := by
  obtain ⟨hv, hs0⟩ := GameEngine.construct_ok h
  subst hs0
  refine ⟨hv, ?_, ?_, ?_, ?_⟩
  · simpa [ReelManager.initReel] using validateSymbolSet_pos hv
  · simpa [ReelManager.initReel] using validateSymbolSet_pos hv
  · simpa [ReelManager.initReel] using validateSymbolSet_pos hv
  · unfold stateLink allStoppedP
    exact ⟨rfl, rfl, rfl⟩

theorem spin_preserves {s s1 : EngineState} (hinv : EngineInv s)
    (h : GameEngine.initiateSpin s = .ok s1) : EngineInv s1 := by
  obtain ⟨hv, _, _, _, _⟩ := hinv
  obtain ⟨_, hs1⟩ := GameEngine.initiateSpin_ok h
  subst hs1
  refine ⟨hv, ?_, ?_, ?_, ?_⟩
  · simpa [ReelManager.spinReels] using validateSymbolSet_pos hv
  · simpa [ReelManager.spinReels] using validateSymbolSet_pos hv
  · simpa [ReelManager.spinReels] using validateSymbolSet_pos hv
  · unfold stateLink allSpinningP ReelManager.spinReels
    exact ⟨rfl, rfl, rfl⟩

theorem tick_preserves {s : EngineState} (i : Nat) (hinv : EngineInv s) :
    EngineInv (GameEngine.tickEngine i s) := by
  obtain ⟨hv, hp0, hp1, hp2, hlink⟩ := hinv
  have hlen : 0 < s.rm.symbolSet.length := validateSymbolSet_pos hv
  unfold GameEngine.tickEngine ReelManager.tickReel
  rcases i with _ | _ | _ | j
  · cases hra : s.rm.reelAt 0 with
    | none => exact absurd hra (by simp [ReelManagerState.reelAt])
    | some r =>
      have hr0 : r = s.rm.reel0 := by
        simpa [ReelManagerState.reelAt] using hra.symm
      subst hr0
      dsimp only
      by_cases hst : (s.rm.reel0.status == ReelStatus.spinning) = true
      · rw [if_pos hst]
        refine ⟨hv, ?_, hp1, hp2, ?_⟩
        · simpa [ReelManagerState.setReel] using Nat.mod_lt _ hlen
        · exact stateLink_congr rfl rfl rfl rfl rfl rfl hlink
      · rw [if_neg hst]
        exact ⟨hv, hp0, hp1, hp2, hlink⟩
  · cases hra : s.rm.reelAt 1 with
    | none => exact absurd hra (by simp [ReelManagerState.reelAt])
    | some r =>
      have hr1 : r = s.rm.reel1 := by
        simpa [ReelManagerState.reelAt] using hra.symm
      subst hr1
      dsimp only
      by_cases hst : (s.rm.reel1.status == ReelStatus.spinning) = true
      · rw [if_pos hst]
        refine ⟨hv, hp0, ?_, hp2, ?_⟩
        · simpa [ReelManagerState.setReel] using Nat.mod_lt _ hlen
        · exact stateLink_congr rfl rfl rfl rfl rfl rfl hlink
      · rw [if_neg hst]
        exact ⟨hv, hp0, hp1, hp2, hlink⟩
  · cases hra : s.rm.reelAt 2 with
    | none => exact absurd hra (by simp [ReelManagerState.reelAt])
    | some r =>
      have hr2 : r = s.rm.reel2 := by
        simpa [ReelManagerState.reelAt] using hra.symm
      subst hr2
      dsimp only
      by_cases hst : (s.rm.reel2.status == ReelStatus.spinning) = true
      · rw [if_pos hst]
        refine ⟨hv, hp0, hp1, ?_, ?_⟩
        · simpa [ReelManagerState.setReel] using Nat.mod_lt _ hlen
        · exact stateLink_congr rfl rfl rfl rfl rfl rfl hlink
      · rw [if_neg hst]
        exact ⟨hv, hp0, hp1, hp2, hlink⟩
  · have : s.rm.reelAt (j + 3) = none := by
      unfold ReelManagerState.reelAt
      rfl
    rw [this]
    exact ⟨hv, hp0, hp1, hp2, hlink⟩

theorem eval_preserves {s s1 : EngineState} {r : SpinResult} (hinv : EngineInv s)
    (h : GameEngine.evaluateResult s = .ok (r, s1)) : EngineInv s1 := by
  obtain ⟨hv, hp0, hp1, hp2, hlink⟩ := hinv
  obtain ⟨hall, _, _, hs1⟩ := GameEngine.evaluateResult_ok h
  rw [areAllReelsStopped_eq] at hall
  have hstopped : allStoppedP s.rm := (allStoppedB_true_iff s.rm).mp hall
  subst hs1
  refine ⟨hv, hp0, hp1, hp2, ?_⟩
  cases hg : s.gameState with
  | IDLE =>
    have hlink2 : stateLink { gameState := GameState.IDLE, rm := s.rm } := by
      rw [← hg]; exact hlink
    have ht : (StateManager.transitionTo GameState.IDLE GameState.IDLE).2 =
        GameState.IDLE := rfl
    rw [ht]
    exact hlink2
  | SPINNING =>
    have hlink2 : stateLink { gameState := GameState.SPINNING, rm := s.rm } := by
      rw [← hg]; exact hlink
    obtain ⟨ha, -, -⟩ := hlink2
    exact absurd (ha.symm.trans hstopped.1) (by decide)
  | PARTIALLY_STOPPED =>
    have hlink2 : stateLink
        { gameState := GameState.PARTIALLY_STOPPED, rm := s.rm } := by
      rw [← hg]; exact hlink
    obtain ⟨-, hspin, -⟩ := hlink2
    obtain ⟨h0, h1, h2⟩ := hstopped
    rcases hspin with hx | hx | hx
    · exact absurd (hx.symm.trans h0) (by decide)
    · exact absurd (hx.symm.trans h1) (by decide)
    · exact absurd (hx.symm.trans h2) (by decide)
  | SHOWING_RESULTS =>
    have ht : (StateManager.transitionTo GameState.SHOWING_RESULTS GameState.IDLE).2 =
        GameState.IDLE := rfl
    rw [ht]
    exact hstopped

/-- A successful `GameEngine.stopReel` preserves the engine invariant. -/
theorem stop_preserves {s : EngineState} {i : Int} {sym : Symbol} {s1 : EngineState}
    (hinv : EngineInv s) (h : GameEngine.stopReel i s = .ok (sym, s1)) :
    EngineInv s1 := by
  obtain ⟨hv, hp0, hp1, hp2, hlink⟩ := hinv
  obtain ⟨hstate, hsp, rm1, hmr, hs1rm, hs1gs⟩ := GameEngine.stopReel_success h
  obtain ⟨k, r, symbols3, hk3, hik, hra, hspin, hset, hcen, hrm1⟩ :=
    ReelManager.stopReel_ok hmr
  subst hrm1
  obtain ⟨gs1, rms1⟩ := s1
  dsimp only at hs1rm hs1gs
  subst hs1rm
  subst hs1gs
  interval_cases k
  · -- the stopped reel is reel 0
    have hr : r = s.rm.reel0 := by
      simpa [ReelManagerState.reelAt] using hra.symm
    subst hr
    refine ⟨hv, hp0, hp1, hp2, ?_⟩
    split
    · rename_i hall
      rcases hstate with hg | hg
      · have hlink2 : stateLink { gameState := GameState.SPINNING, rm := s.rm } := by
          rw [← hg]; exact hlink
        obtain ⟨haa, hab, hac⟩ :
            s.rm.reel0.status = .spinning ∧ s.rm.reel1.status = .spinning ∧
              s.rm.reel2.status = .spinning := hlink2
        obtain ⟨hc0, hc1, hc2⟩ := (allStoppedB_true_iff _).mp hall
        exact absurd (hab.symm.trans hc1) (by decide)
      · have hlink2 : stateLink
            { gameState := GameState.PARTIALLY_STOPPED, rm := s.rm } := by
          rw [← hg]; exact hlink
        obtain ⟨-, -, hs0, hs1, hs2⟩ :
            someStoppedP s.rm ∧ someSpinningP s.rm ∧
              (s.rm.reel0.status = .stopped → s.rm.reel0.fixedSymbol.isSome = true) ∧
              (s.rm.reel1.status = .stopped → s.rm.reel1.fixedSymbol.isSome = true) ∧
              (s.rm.reel2.status = .stopped → s.rm.reel2.fixedSymbol.isSome = true) :=
          hlink2
        rw [hg]
        have ht : (StateManager.transitionTo GameState.PARTIALLY_STOPPED
            GameState.SHOWING_RESULTS).2 = GameState.SHOWING_RESULTS := rfl
        rw [ht]
        have hsa := hs1
        have hsb := hs2
        exact ⟨(allStoppedB_true_iff _).mp hall, fun _ => rfl, hsa, hsb⟩
    · rename_i hall
      have hallf : allStoppedB (s.rm.setReel 0
          { status := .stopped, fixedSymbol := some sym, fixedSet := some symbols3,
             position := s.rm.reel0.position }) = false :=
        Bool.eq_false_iff.mpr hall
      split
      · rename_i hg
        rw [hg]
        have ht : (StateManager.transitionTo GameState.SPINNING
            GameState.PARTIALLY_STOPPED).2 = GameState.PARTIALLY_STOPPED := rfl
        rw [ht]
        have hlink2 : stateLink { gameState := GameState.SPINNING, rm := s.rm } := by
          rw [← hg]; exact hlink
        obtain ⟨ha0, ha1, ha2⟩ :
            s.rm.reel0.status = .spinning ∧ s.rm.reel1.status = .spinning ∧
              s.rm.reel2.status = .spinning := hlink2
        have haa2 := ha1
        have hab2 := ha2
        exact ⟨Or.inl rfl, (allStoppedB_false_iff _).mp hallf,
          fun _ => rfl, fun hq => absurd (haa2.symm.trans hq) (by decide), fun hq => absurd (hab2.symm.trans hq) (by decide)⟩
      · rename_i hg
        have hgps : s.gameState = .PARTIALLY_STOPPED := hstate.resolve_left hg
        rw [hgps]
        have hlink2 : stateLink
            { gameState := GameState.PARTIALLY_STOPPED, rm := s.rm } := by
          rw [← hgps]; exact hlink
        obtain ⟨-, -, hs0, hs1, hs2⟩ :
            someStoppedP s.rm ∧ someSpinningP s.rm ∧
              (s.rm.reel0.status = .stopped → s.rm.reel0.fixedSymbol.isSome = true) ∧
              (s.rm.reel1.status = .stopped → s.rm.reel1.fixedSymbol.isSome = true) ∧
              (s.rm.reel2.status = .stopped → s.rm.reel2.fixedSymbol.isSome = true) :=
          hlink2
        have hsa := hs1
        have hsb := hs2
        exact ⟨Or.inl rfl, (allStoppedB_false_iff _).mp hallf, fun _ => rfl, hsa, hsb⟩
  · -- the stopped reel is reel 1
    have hr : r = s.rm.reel1 := by
      simpa [ReelManagerState.reelAt] using hra.symm
    subst hr
    refine ⟨hv, hp0, hp1, hp2, ?_⟩
    split
    · rename_i hall
      rcases hstate with hg | hg
      · have hlink2 : stateLink { gameState := GameState.SPINNING, rm := s.rm } := by
          rw [← hg]; exact hlink
        obtain ⟨haa, hab, hac⟩ :
            s.rm.reel0.status = .spinning ∧ s.rm.reel1.status = .spinning ∧
              s.rm.reel2.status = .spinning := hlink2
        obtain ⟨hc0, hc1, hc2⟩ := (allStoppedB_true_iff _).mp hall
        exact absurd (haa.symm.trans hc0) (by decide)
      · have hlink2 : stateLink
            { gameState := GameState.PARTIALLY_STOPPED, rm := s.rm } := by
          rw [← hg]; exact hlink
        obtain ⟨-, -, hs0, hs1, hs2⟩ :
            someStoppedP s.rm ∧ someSpinningP s.rm ∧
              (s.rm.reel0.status = .stopped → s.rm.reel0.fixedSymbol.isSome = true) ∧
              (s.rm.reel1.status = .stopped → s.rm.reel1.fixedSymbol.isSome = true) ∧
              (s.rm.reel2.status = .stopped → s.rm.reel2.fixedSymbol.isSome = true) :=
          hlink2
        rw [hg]
        have ht : (StateManager.transitionTo GameState.PARTIALLY_STOPPED
            GameState.SHOWING_RESULTS).2 = GameState.SHOWING_RESULTS := rfl
        rw [ht]
        have hsa := hs0
        have hsb := hs2
        exact ⟨(allStoppedB_true_iff _).mp hall, hsa, fun _ => rfl, hsb⟩
    · rename_i hall
      have hallf : allStoppedB (s.rm.setReel 1
          { status := .stopped, fixedSymbol := some sym, fixedSet := some symbols3,
             position := s.rm.reel1.position }) = false :=
        Bool.eq_false_iff.mpr hall
      split
      · rename_i hg
        rw [hg]
        have ht : (StateManager.transitionTo GameState.SPINNING
            GameState.PARTIALLY_STOPPED).2 = GameState.PARTIALLY_STOPPED := rfl
        rw [ht]
        have hlink2 : stateLink { gameState := GameState.SPINNING, rm := s.rm } := by
          rw [← hg]; exact hlink
        obtain ⟨ha0, ha1, ha2⟩ :
            s.rm.reel0.status = .spinning ∧ s.rm.reel1.status = .spinning ∧
              s.rm.reel2.status = .spinning := hlink2
        have haa2 := ha0
        have hab2 := ha2
        exact ⟨Or.inr (Or.inl rfl), (allStoppedB_false_iff _).mp hallf,
          fun hq => absurd (haa2.symm.trans hq) (by decide), fun _ => rfl, fun hq => absurd (hab2.symm.trans hq) (by decide)⟩
      · rename_i hg
        have hgps : s.gameState = .PARTIALLY_STOPPED := hstate.resolve_left hg
        rw [hgps]
        have hlink2 : stateLink
            { gameState := GameState.PARTIALLY_STOPPED, rm := s.rm } := by
          rw [← hgps]; exact hlink
        obtain ⟨-, -, hs0, hs1, hs2⟩ :
            someStoppedP s.rm ∧ someSpinningP s.rm ∧
              (s.rm.reel0.status = .stopped → s.rm.reel0.fixedSymbol.isSome = true) ∧
              (s.rm.reel1.status = .stopped → s.rm.reel1.fixedSymbol.isSome = true) ∧
              (s.rm.reel2.status = .stopped → s.rm.reel2.fixedSymbol.isSome = true) :=
          hlink2
        have hsa := hs0
        have hsb := hs2
        exact ⟨Or.inr (Or.inl rfl), (allStoppedB_false_iff _).mp hallf, hsa, fun _ => rfl, hsb⟩
  · -- the stopped reel is reel 2
    have hr : r = s.rm.reel2 := by
      simpa [ReelManagerState.reelAt] using hra.symm
    subst hr
    refine ⟨hv, hp0, hp1, hp2, ?_⟩
    split
    · rename_i hall
      rcases hstate with hg | hg
      · have hlink2 : stateLink { gameState := GameState.SPINNING, rm := s.rm } := by
          rw [← hg]; exact hlink
        obtain ⟨haa, hab, hac⟩ :
            s.rm.reel0.status = .spinning ∧ s.rm.reel1.status = .spinning ∧
              s.rm.reel2.status = .spinning := hlink2
        obtain ⟨hc0, hc1, hc2⟩ := (allStoppedB_true_iff _).mp hall
        exact absurd (haa.symm.trans hc0) (by decide)
      · have hlink2 : stateLink
            { gameState := GameState.PARTIALLY_STOPPED, rm := s.rm } := by
          rw [← hg]; exact hlink
        obtain ⟨-, -, hs0, hs1, hs2⟩ :
            someStoppedP s.rm ∧ someSpinningP s.rm ∧
              (s.rm.reel0.status = .stopped → s.rm.reel0.fixedSymbol.isSome = true) ∧
              (s.rm.reel1.status = .stopped → s.rm.reel1.fixedSymbol.isSome = true) ∧
              (s.rm.reel2.status = .stopped → s.rm.reel2.fixedSymbol.isSome = true) :=
          hlink2
        rw [hg]
        have ht : (StateManager.transitionTo GameState.PARTIALLY_STOPPED
            GameState.SHOWING_RESULTS).2 = GameState.SHOWING_RESULTS := rfl
        rw [ht]
        have hsa := hs0
        have hsb := hs1
        exact ⟨(allStoppedB_true_iff _).mp hall, hsa, hsb, fun _ => rfl⟩
    · rename_i hall
      have hallf : allStoppedB (s.rm.setReel 2
          { status := .stopped, fixedSymbol := some sym, fixedSet := some symbols3,
             position := s.rm.reel2.position }) = false :=
        Bool.eq_false_iff.mpr hall
      split
      · rename_i hg
        rw [hg]
        have ht : (StateManager.transitionTo GameState.SPINNING
            GameState.PARTIALLY_STOPPED).2 = GameState.PARTIALLY_STOPPED := rfl
        rw [ht]
        have hlink2 : stateLink { gameState := GameState.SPINNING, rm := s.rm } := by
          rw [← hg]; exact hlink
        obtain ⟨ha0, ha1, ha2⟩ :
            s.rm.reel0.status = .spinning ∧ s.rm.reel1.status = .spinning ∧
              s.rm.reel2.status = .spinning := hlink2
        have haa2 := ha0
        have hab2 := ha1
        exact ⟨Or.inr (Or.inr rfl), (allStoppedB_false_iff _).mp hallf,
          fun hq => absurd (haa2.symm.trans hq) (by decide), fun hq => absurd (hab2.symm.trans hq) (by decide), fun _ => rfl⟩
      · rename_i hg
        have hgps : s.gameState = .PARTIALLY_STOPPED := hstate.resolve_left hg
        rw [hgps]
        have hlink2 : stateLink
            { gameState := GameState.PARTIALLY_STOPPED, rm := s.rm } := by
          rw [← hgps]; exact hlink
        obtain ⟨-, -, hs0, hs1, hs2⟩ :
            someStoppedP s.rm ∧ someSpinningP s.rm ∧
              (s.rm.reel0.status = .stopped → s.rm.reel0.fixedSymbol.isSome = true) ∧
              (s.rm.reel1.status = .stopped → s.rm.reel1.fixedSymbol.isSome = true) ∧
              (s.rm.reel2.status = .stopped → s.rm.reel2.fixedSymbol.isSome = true) :=
          hlink2
        have hsa := hs0
        have hsb := hs1
        exact ⟨Or.inr (Or.inr rfl), (allStoppedB_false_iff _).mp hallf, hsa, hsb, fun _ => rfl⟩

/-- Every reachable engine state satisfies the engine invariant. -/
theorem reachable_inv {s : EngineState} (h : GameEngine.Reachable s) :
    EngineInv s := by
  induction h with
  | init cs s0 hok => exact construct_inv hok
  | tick s i hr ih => exact tick_preserves i ih
  | spin s s1 hr hok ih => exact spin_preserves ih hok
  | stop s i sym s1 hr hok ih => exact stop_preserves ih hok
  | eval s r s1 hr hok ih => exact eval_preserves ih hok

theorem reelAt_setReel_self {k : Nat} (hk : k < 3) (rm : ReelManagerState)
    (r : Reel) : (rm.setReel k r).reelAt k = some r := by
  interval_cases k <;> rfl

theorem reelAt_setReel_ne {k j : Nat} (hk : k < 3) (h : j ≠ k)
    (rm : ReelManagerState) (r : Reel) :
    (rm.setReel k r).reelAt j = rm.reelAt j := by
  interval_cases k <;> rcases j with _ | _ | _ | n <;>
    simp_all [ReelManagerState.setReel, ReelManagerState.reelAt]

theorem construct_default : GameEngine.construct none = .ok initialEngine := rfl

theorem reach_initial : GameEngine.Reachable initialEngine :=
  .init none initialEngine construct_default

theorem initiateSpin_initial :
    GameEngine.initiateSpin initialEngine = .ok spinningEngine := rfl

theorem reach_spinning : GameEngine.Reachable spinningEngine :=
  .spin initialEngine spinningEngine reach_initial initiateSpin_initial

/-- C10: in every reachable engine state the game state and the reel
statuses stay linked: SPINNING means all three reels spin,
PARTIALLY_STOPPED means at least one reel is stopped and at least one
spins, SHOWING_RESULTS means all three reels are stopped with non-null
fixed symbols; and a freshly constructed engine is IDLE with all three
reels stopped and null symbols. -/
theorem engine_state_reel_linkage :
    (∀ (customSymbols : Option (List Symbol)) (s0 : EngineState),
      GameEngine.construct customSymbols = .ok s0 →
        s0.gameState = .IDLE ∧ allStoppedP s0.rm ∧
        s0.rm.reel0.fixedSymbol = none ∧ s0.rm.reel1.fixedSymbol = none ∧
        s0.rm.reel2.fixedSymbol = none) ∧
    (∀ s : EngineState, GameEngine.Reachable s →
      (s.gameState = .SPINNING → allSpinningP s.rm) ∧
      (s.gameState = .PARTIALLY_STOPPED → someStoppedP s.rm ∧ someSpinningP s.rm) ∧
      (s.gameState = .SHOWING_RESULTS → allStoppedP s.rm ∧
        s.rm.reel0.fixedSymbol.isSome = true ∧
        s.rm.reel1.fixedSymbol.isSome = true ∧
        s.rm.reel2.fixedSymbol.isSome = true)) := by
  constructor
  · intro cs s0 hok
    obtain ⟨hv, hs0⟩ := GameEngine.construct_ok hok
    subst hs0
    exact ⟨rfl, ⟨rfl, rfl, rfl⟩, rfl, rfl, rfl⟩
  · intro s hr
    obtain ⟨-, -, -, -, hlink⟩ := reachable_inv hr
    refine ⟨?_, ?_, ?_⟩ <;> intro hg
    · have h2 : stateLink { gameState := GameState.SPINNING, rm := s.rm } := by
        rw [← hg]; exact hlink
      exact h2
    · have h2 : stateLink
          { gameState := GameState.PARTIALLY_STOPPED, rm := s.rm } := by
        rw [← hg]; exact hlink
      obtain ⟨h2a, h2b, -⟩ := h2
      exact ⟨h2a, h2b⟩
    · have h2 : stateLink
          { gameState := GameState.SHOWING_RESULTS, rm := s.rm } := by
        rw [← hg]; exact hlink
      obtain ⟨⟨hx0, hx1, hx2⟩, hy0, hy1, hy2⟩ := h2
      exact ⟨⟨hx0, hx1, hx2⟩, hy0 hx0, hy1 hx1, hy2 hx2⟩

/-- Witness for C10: the fresh default engine and the state right after
its first `initiateSpin`. -/
theorem engine_state_reel_linkage_witness :
    (initialEngine.gameState = .IDLE ∧ allStoppedP initialEngine.rm ∧
      initialEngine.rm.reel0.fixedSymbol = none ∧
      initialEngine.rm.reel1.fixedSymbol = none ∧
      initialEngine.rm.reel2.fixedSymbol = none) ∧
    allSpinningP spinningEngine.rm :=
  ⟨engine_state_reel_linkage.1 none initialEngine construct_default,
   (engine_state_reel_linkage.2 spinningEngine reach_spinning).1 rfl⟩

/-- Counterexample to C7 as stated: on the freshly constructed engine
(a reachable state) all three reels are stopped, yet `evaluateResult`
does not evaluate and return a `SpinResult` — it throws the
missing-symbol error, because the stopped reels hold no fixed symbols
yet. -/
theorem evaluateResult_initial_counterexample :
    GameEngine.Reachable initialEngine ∧
    GameEngine.areAllReelsStopped initialEngine = true ∧
    GameEngine.evaluateResult initialEngine =
      .error "一部のリールがまだ停止していません" :=
  ⟨reach_initial, rfl, rfl⟩

/-- C7 (amended): on every reachable engine state, `evaluateResult`
fails with the not-all-stopped error unless all three reels are
stopped, fails with the missing-symbol error when all are stopped but
some reel holds no fixed symbol (only the fresh engine), and otherwise
evaluates the three fixed symbols, returns them with the win
evaluation, and leaves the game state IDLE — via the
ShowingResults→Idle transition when called in SHOWING_RESULTS, the
only other reachable success state being IDLE itself (a re-evaluated
finished round), which stays IDLE. -/
theorem evaluateResult_characterization (s : EngineState)
    (hreach : GameEngine.Reachable s) :
    (GameEngine.areAllReelsStopped s = false →
        GameEngine.evaluateResult s = .error "すべてのリールが停止していません") ∧
    (GameEngine.areAllReelsStopped s = true →
      ((ReelManager.getAllReelSymbols s.rm).any (fun o => o.isNone) = true →
          GameEngine.evaluateResult s =
            .error "一部のリールがまだ停止していません") ∧
      ((ReelManager.getAllReelSymbols s.rm).any (fun o => o.isNone) = false →
          ∃ res s1, GameEngine.evaluateResult s = .ok (res, s1) ∧
            res.symbols =
              (ReelManager.getAllReelSymbols s.rm).filterMap (fun o => o) ∧
            res.winResult = WinEvaluator.evaluateResult
              WinEvaluator.defaultWinConditions
              (some (ReelManager.getAllReelSymbols s.rm)) ∧
            s1.rm = s.rm ∧ s1.gameState = .IDLE ∧
            (s.gameState = .SHOWING_RESULTS ∨ s.gameState = .IDLE))) := by
  constructor
  · intro hf
    unfold GameEngine.evaluateResult
    rw [hf]
    rfl
  · intro ht
    obtain ⟨-, -, -, -, hlink⟩ := reachable_inv hreach
    have hstop : allStoppedP s.rm :=
      (allStoppedB_true_iff _).mp ((areAllReelsStopped_eq s) ▸ ht)
    have hstate2 : s.gameState = .SHOWING_RESULTS ∨ s.gameState = .IDLE := by
      cases hg : s.gameState with
      | IDLE => exact Or.inr rfl
      | SHOWING_RESULTS => exact Or.inl rfl
      | SPINNING =>
        have h2 : stateLink { gameState := GameState.SPINNING, rm := s.rm } := by
          rw [← hg]; exact hlink
        obtain ⟨ha, -, -⟩ := h2
        exact absurd (ha.symm.trans hstop.1) (by decide)
      | PARTIALLY_STOPPED =>
        have h2 : stateLink
            { gameState := GameState.PARTIALLY_STOPPED, rm := s.rm } := by
          rw [← hg]; exact hlink
        obtain ⟨-, hsp, -⟩ := h2
        obtain ⟨h0, h1, h2s⟩ := hstop
        rcases hsp with hx | hx | hx
        · exact absurd (hx.symm.trans h0) (by decide)
        · exact absurd (hx.symm.trans h1) (by decide)
        · exact absurd (hx.symm.trans h2s) (by decide)
    constructor
    · intro hany
      unfold GameEngine.evaluateResult
      rw [ht]
      dsimp only
      rw [hany]
      rfl
    · intro hany
      unfold GameEngine.evaluateResult
      rw [ht]
      dsimp only
      rw [hany]
      refine ⟨_, _, rfl, rfl, rfl, rfl, ?_, hstate2⟩
      rcases hstate2 with hg | hg <;> rw [hg] <;> rfl

/-- Witness for the amended C7 at the fresh engine (all reels stopped,
no fixed symbols yet: the missing-symbol error branch). -/
theorem evaluateResult_characterization_witness :
    GameEngine.evaluateResult initialEngine =
      .error "一部のリールがまだ停止していません" :=
  ((evaluateResult_characterization initialEngine reach_initial).2 rfl).1 rfl

/-- C3: on every reachable engine state and every index `i`,
`stopReel(i)` throws the illegal-state error unless the game state is
SPINNING or PARTIALLY_STOPPED; throws the already-stopped error when
reel `i` is not spinning (out-of-range indices included, and in
particular on a second `stopReel(i)` without an intervening spin);
otherwise it succeeds: reel `i` is stopped, its returned symbol is
recorded as the reel's fixed symbol, and the game state moves to
SHOWING_RESULTS when all three reels are now stopped, else to
PARTIALLY_STOPPED — where the state actually changed (the prior state
was SPINNING) exactly when this was the first reel stopped, i.e. all
reels were spinning before the call. -/
theorem stopReel_characterization (s : EngineState) (i : Int)
    (hreach : GameEngine.Reachable s) :
    (¬(s.gameState = .SPINNING ∨ s.gameState = .PARTIALLY_STOPPED) →
        GameEngine.stopReel i s =
          .error ("リールを停止できません。現在の状態: " ++ s.gameState.toStr)) ∧
    ((s.gameState = .SPINNING ∨ s.gameState = .PARTIALLY_STOPPED) →
      (ReelManager.isReelSpinning i s.rm = false →
          GameEngine.stopReel i s =
            .error ("リール " ++ toString (i + 1) ++ " は既に停止しています")) ∧
      (ReelManager.isReelSpinning i s.rm = true →
          ∃ sym s1, GameEngine.stopReel i s = .ok (sym, s1) ∧
            (s1.rm.reelAt i.toNat).map Reel.status = some ReelStatus.stopped ∧
            (s1.rm.reelAt i.toNat).map Reel.fixedSymbol = some (some sym) ∧
            (allStoppedB s1.rm = true → s1.gameState = .SHOWING_RESULTS) ∧
            (allStoppedB s1.rm = false → s1.gameState = .PARTIALLY_STOPPED ∧
              (s.gameState = .SPINNING ↔ allSpinningP s.rm)))) := by
  constructor
  · intro hns
    have hcond : (s.gameState != GameState.SPINNING &&
        s.gameState != GameState.PARTIALLY_STOPPED) = true := by
      cases hg : s.gameState with
      | IDLE => decide
      | SHOWING_RESULTS => decide
      | SPINNING => exact absurd (Or.inl hg) hns
      | PARTIALLY_STOPPED => exact absurd (Or.inr hg) hns
    unfold GameEngine.stopReel
    dsimp only
    rw [if_pos hcond]
  · intro hstate
    have hcond : ¬((s.gameState != GameState.SPINNING &&
        s.gameState != GameState.PARTIALLY_STOPPED) = true) := by
      rcases hstate with hg | hg <;> rw [hg] <;> decide
    constructor
    · intro hnsp
      unfold GameEngine.stopReel
      dsimp only
      rw [if_neg hcond, hnsp]
      rfl
    · intro hsp
      have hsp0 := hsp
      have hbound : ¬(i < 0 ∨ 3 ≤ i) := by
        intro hb
        unfold ReelManager.isReelSpinning at hsp
        rw [if_pos hb] at hsp
        exact absurd hsp (by decide)
      rw [not_or] at hbound
      obtain ⟨hlt0, hle3⟩ := hbound
      have h0i : 0 ≤ i := not_lt.mp hlt0
      have hi3 : i < 3 := not_le.mp hle3
      have hk3 : i.toNat < 3 := by omega
      unfold ReelManager.isReelSpinning at hsp
      rw [if_neg (not_or.mpr ⟨hlt0, hle3⟩)] at hsp
      cases hra : s.rm.reelAt i.toNat with
      | none =>
        rw [hra] at hsp
        exact absurd hsp (by simp)
      | some r =>
        rw [hra] at hsp
        dsimp only at hsp
        have hrstat : r.status = .spinning := by simpa using hsp
        obtain ⟨hv, hp0, hp1, hp2, hlink⟩ := reachable_inv hreach
        have hlen : 0 < s.rm.symbolSet.length := validateSymbolSet_pos hv
        have hpos : r.position < s.rm.symbolSet.length := by
          rcases hkk : i.toNat with _ | _ | _ | n
          · rw [hkk] at hra
            have hre : r = s.rm.reel0 := by
              simpa [ReelManagerState.reelAt] using hra.symm
            rw [hre]; exact hp0
          · rw [hkk] at hra
            have hre : r = s.rm.reel1 := by
              simpa [ReelManagerState.reelAt] using hra.symm
            rw [hre]; exact hp1
          · rw [hkk] at hra
            have hre : r = s.rm.reel2 := by
              simpa [ReelManagerState.reelAt] using hra.symm
            rw [hre]; exact hp2
          · rw [hkk] at hk3
            omega
        have hset : ∃ top center bottom,
            ReelManager.getCurrentSymbolSetAtPosition i s.rm =
              .ok [top, center, bottom] := by
          unfold ReelManager.getCurrentSymbolSetAtPosition
          rw [if_neg (not_lt.mpr h0i), hra]
          dsimp only
          cases htq : s.rm.symbolSet[(r.position + s.rm.symbolSet.length - 1) %
              s.rm.symbolSet.length]? with
          | none =>
            rw [List.getElem?_eq_none_iff] at htq
            exact absurd htq (by push_neg; exact Nat.mod_lt _ hlen)
          | some top =>
            dsimp only
            cases hcq : s.rm.symbolSet[r.position]? with
            | none =>
              rw [List.getElem?_eq_none_iff] at hcq
              exact absurd hcq (by push_neg; exact hpos)
            | some center =>
              dsimp only
              cases hbq : s.rm.symbolSet[(r.position + 1) %
                  s.rm.symbolSet.length]? with
              | none =>
                rw [List.getElem?_eq_none_iff] at hbq
                exact absurd hbq (by push_neg; exact Nat.mod_lt _ hlen)
              | some bottom =>
                exact ⟨top, center, bottom, rfl⟩
        obtain ⟨top, center, bottom, hset⟩ := hset
        have hmr : ReelManager.stopReel i s.rm = .ok (center,
            s.rm.setReel i.toNat
              { r with status := .stopped, fixedSymbol := some center,
                       fixedSet := some [top, center, bottom] }) := by
          unfold ReelManager.stopReel
          rw [if_neg (not_or.mpr ⟨hlt0, hle3⟩), hra]
          dsimp only
          rw [if_neg (show ¬((r.status == ReelStatus.stopped) = true) by
            rw [hrstat]; decide)]
          rw [hset]
          rfl
        have hres : GameEngine.stopReel i s = .ok (center,
            { gameState :=
                if (!(ReelManager.isReelSpinning 0 (s.rm.setReel i.toNat
                      { r with status := .stopped, fixedSymbol := some center,
                               fixedSet := some [top, center, bottom] })) &&
                    !(ReelManager.isReelSpinning 1 (s.rm.setReel i.toNat
                      { r with status := .stopped, fixedSymbol := some center,
                               fixedSet := some [top, center, bottom] })) &&
                    !(ReelManager.isReelSpinning 2 (s.rm.setReel i.toNat
                      { r with status := .stopped, fixedSymbol := some center,
                               fixedSet := some [top, center, bottom] }))) = true
                then (StateManager.transitionTo s.gameState .SHOWING_RESULTS).2
                else if (s.gameState == GameState.SPINNING) = true then
                  (StateManager.transitionTo s.gameState .PARTIALLY_STOPPED).2
                else s.gameState,
              rm := s.rm.setReel i.toNat
                { r with status := .stopped, fixedSymbol := some center,
                         fixedSet := some [top, center, bottom] } }) := by
          unfold GameEngine.stopReel
          dsimp only
          rw [if_neg hcond, hsp0]
          rw [if_neg (show ¬((!true) = true) by decide)]
          rw [hmr]
        refine ⟨center, _, hres, ?_, ?_, ?_, ?_⟩
        · rw [reelAt_setReel_self hk3]
          rfl
        · rw [reelAt_setReel_self hk3]
          rfl
        · intro hall
          split
          · rcases hstate with hg | hg <;> rw [hg] <;> rfl
          · rename_i hcnd
            exact absurd hall hcnd
        · intro hall
          split
          · rename_i hcnd
            exact absurd hcnd (Bool.eq_false_iff.mp hall)
          · rcases hstate with hg | hg
            · rw [hg]
              constructor
              · rfl
              · have hlink2 : stateLink
                    { gameState := GameState.SPINNING, rm := s.rm } := by
                  rw [← hg]; exact hlink
                exact ⟨fun _ => hlink2, fun _ => rfl⟩
            · rw [hg]
              constructor
              · rfl
              · have hlink2 : stateLink
                    { gameState := GameState.PARTIALLY_STOPPED, rm := s.rm } := by
                  rw [← hg]; exact hlink
                obtain ⟨hsome, -, -⟩ := hlink2
                constructor
                · intro hx
                  exact absurd hx (by decide)
                · intro hallspin
                  obtain ⟨ha0, ha1, ha2⟩ := hallspin
                  rcases hsome with hx | hx | hx
                  · exact absurd (ha0.symm.trans hx) (by decide)
                  · exact absurd (ha1.symm.trans hx) (by decide)
                  · exact absurd (ha2.symm.trans hx) (by decide)

/-- A reel that is stopped survives any single successful `stopReel`
call untouched (the successful call's reel was spinning, hence a
different reel). -/
theorem stopReel_preserves_stopped {j : Nat} {s : EngineState}
    {k : Int} {sym : Symbol} {s1 : EngineState}
    (hst : (s.rm.reelAt j).map Reel.status = some ReelStatus.stopped)
    (h : GameEngine.stopReel k s = .ok (sym, s1)) :
    (s1.rm.reelAt j).map Reel.status = some ReelStatus.stopped ∧
    (s1.rm.reelAt j).map Reel.fixedSymbol = (s.rm.reelAt j).map Reel.fixedSymbol := by
  obtain ⟨-, hsp, rm1, hmr, hs1rm, -⟩ := GameEngine.stopReel_success h
  obtain ⟨kk, r, symbols3, hk3, hik, hra, hspin, -, -, hrm1⟩ :=
    ReelManager.stopReel_ok hmr
  subst hrm1
  have hne : j ≠ kk := by
    intro he
    subst he
    rw [hra] at hst
    have hstop : r.status = .stopped := by simpa using hst
    rw [hspin] at hstop
    exact absurd hstop (by decide)
  rw [hs1rm, reelAt_setReel_ne hk3 hne]
  exact ⟨hst, rfl⟩

/-- A stopped reel survives any sequence of subsequent `stopReel`
attempts with its status and fixed symbol intact. -/
theorem applyStops_preserves_stopped {j : Nat}
    (ks : List Int) (s : EngineState)
    (hst : (s.rm.reelAt j).map Reel.status = some ReelStatus.stopped) :
    ((GameEngine.applyStops ks s).rm.reelAt j).map Reel.status =
      some ReelStatus.stopped ∧
    ((GameEngine.applyStops ks s).rm.reelAt j).map Reel.fixedSymbol =
      (s.rm.reelAt j).map Reel.fixedSymbol := by
  induction ks generalizing s with
  | nil => exact ⟨hst, rfl⟩
  | cons k ks ih =>
    unfold GameEngine.applyStops
    cases hr : GameEngine.stopReel k s with
    | error e =>
      dsimp only
      exact ih s hst
    | ok p =>
      obtain ⟨sym, s1⟩ := p
      have hp := stopReel_preserves_stopped hst hr
      dsimp only
      obtain ⟨ih1, ih2⟩ := ih s1 hp.1
      exact ⟨ih1, ih2.trans hp.2⟩

/-- C9: a successful `stopReel(j)` leaves the status and fixed symbol
of every other reel `i ≠ j` unchanged, and reel `j` afterwards stays
stopped with the returned symbol as its fixed symbol under every
sequence of subsequent `stopReel` calls (no `spinReels` runs without a
new `initiateSpin`). -/
theorem stopReel_frame (s : EngineState) (j : Int) (sym : Symbol)
    (s1 : EngineState) (h : GameEngine.stopReel j s = .ok (sym, s1)) :
    (∀ i : Nat, i < 3 → (i : Int) ≠ j →
      (s1.rm.reelAt i).map Reel.status = (s.rm.reelAt i).map Reel.status ∧
      (s1.rm.reelAt i).map Reel.fixedSymbol =
        (s.rm.reelAt i).map Reel.fixedSymbol) ∧
    (∀ ks : List Int,
      ((GameEngine.applyStops ks s1).rm.reelAt j.toNat).map Reel.status =
        some ReelStatus.stopped ∧
      ((GameEngine.applyStops ks s1).rm.reelAt j.toNat).map Reel.fixedSymbol =
        some (some sym)) := by
  obtain ⟨-, hsp, rm1, hmr, hs1rm, -⟩ := GameEngine.stopReel_success h
  obtain ⟨kk, r, symbols3, hk3, hik, hra, hspin, -, -, hrm1⟩ :=
    ReelManager.stopReel_ok hmr
  subst hrm1
  have hjk : j.toNat = kk := by rw [hik]; simp
  constructor
  · intro i hi hne
    have hnek : i ≠ kk := by
      intro he
      apply hne
      rw [he]
      exact hik.symm
    rw [hs1rm, reelAt_setReel_ne hk3 hnek]
    exact ⟨rfl, rfl⟩
  · intro ks
    have hst1 : (s1.rm.reelAt j.toNat).map Reel.status =
        some ReelStatus.stopped := by
      rw [hs1rm, hjk, reelAt_setReel_self hk3]
      rfl
    have hsym1 : (s1.rm.reelAt j.toNat).map Reel.fixedSymbol = some (some sym) := by
      rw [hs1rm, hjk, reelAt_setReel_self hk3]
      rfl
    obtain ⟨ha, hb⟩ := applyStops_preserves_stopped ks s1 hst1
    exact ⟨ha, hb.trans hsym1⟩

theorem stopReel_spinning :
    GameEngine.stopReel 0 spinningEngine =
      .ok (⟨"cherry", "Cherry", "🍒", none⟩, stoppedOnceEngine) := rfl

/-- Witness for C9: stopping reel 0 of the freshly spun engine leaves
reel 1 untouched, and a subsequent `stopReel(1)` leaves reel 0 stopped
on its cherry. -/
theorem stopReel_frame_witness :
    ((stoppedOnceEngine.rm.reelAt 1).map Reel.status =
        (spinningEngine.rm.reelAt 1).map Reel.status ∧
      (stoppedOnceEngine.rm.reelAt 1).map Reel.fixedSymbol =
        (spinningEngine.rm.reelAt 1).map Reel.fixedSymbol) ∧
    ((GameEngine.applyStops [1] stoppedOnceEngine).rm.reelAt
        (0 : Int).toNat).map Reel.status = some ReelStatus.stopped ∧
    ((GameEngine.applyStops [1] stoppedOnceEngine).rm.reelAt
        (0 : Int).toNat).map Reel.fixedSymbol =
      some (some ⟨"cherry", "Cherry", "🍒", none⟩) := by
  have h := stopReel_frame spinningEngine 0 ⟨"cherry", "Cherry", "🍒", none⟩
    stoppedOnceEngine stopReel_spinning
  exact ⟨h.1 1 (by decide) (by decide), (h.2 [1]).1, (h.2 [1]).2⟩

/-- Witness for C3: on the freshly spun engine (state SPINNING, all
reels spinning) `stopReel(0)` succeeds with the characterized
outcome. -/
theorem stopReel_characterization_witness :
    ∃ sym s1, GameEngine.stopReel 0 spinningEngine = .ok (sym, s1) ∧
      (s1.rm.reelAt (0 : Int).toNat).map Reel.status = some ReelStatus.stopped ∧
      (s1.rm.reelAt (0 : Int).toNat).map Reel.fixedSymbol = some (some sym) ∧
      (allStoppedB s1.rm = true → s1.gameState = .SHOWING_RESULTS) ∧
      (allStoppedB s1.rm = false → s1.gameState = .PARTIALLY_STOPPED ∧
        (spinningEngine.gameState = .SPINNING ↔ allSpinningP spinningEngine.rm)) :=
  ((stopReel_characterization spinningEngine 0 reach_spinning).2 (Or.inl rfl)).2 rfl

end SlotMachine
